import Mathlib

/-!
Shallow embedding of the PlasticGeoDistance geodesy library
(src/PlasticGeoDistance.js) over the real numbers.

Modelling conventions:
* JavaScript numbers are modelled by `ℝ`.  IEEE NaN is not representable
  over `ℝ`; the two places the source mentions it are noted at the
  corresponding definitions.  `Real.sqrt` of a negative number is `0` and
  `Real.arcsin` clamps its argument to `[-1, 1]`; at every reachable call
  site below the arguments are in range, so the clamping is inert.
* JavaScript strings (for the unit indicator) are modelled by `List Char`;
  the absent constructor argument is `Option.none`, and JS truthiness of a
  string ("" is falsy) becomes `s ≠ []`.
* The source's inner `while` loop in `computeMinimumDistancePoint` has no
  syntactic bound, so it is embedded with an explicit `fuel : ℕ` parameter
  (`ringLoop` below); on exhausted fuel the current best value is returned.
  The theorems below hold for every fuel value.
* Source method names prefixed with an underscore keep the same name
  without the underscore.
-/

noncomputable section

open Real

open scoped Classical

/-- A lat/lng pair. The source uses the same `{lat, lng}` shape for both
degree-valued and radian-valued points; so do we. -/
structure GeoPoint where
  lat : ℝ
  lng : ℝ

/-- A centering point: radian lat/lng plus cartesian coordinates, the shape
produced by `toCenteringArray` in the source. -/
structure CPoint where
  lat : ℝ
  lng : ℝ
  x : ℝ
  y : ℝ
  z : ℝ

/-- A bounding rectangle in degrees. -/
structure Bounds where
  minLat : ℝ
  maxLat : ℝ
  minLng : ℝ
  maxLng : ℝ

/-- The result record of the distance aggregation operations. -/
structure DistanceResult where
  point : GeoPoint
  avgDist : ℝ
  totalDist : ℝ

/-- The engine instance state fixed by the constructor: the normalized unit
letter and the earth radius constant. -/
structure PlasticGeoDistance where
  units : List Char
  earthRadius : ℝ

/-- The constructor: `units ? (units.toUpperCase().substring(0,1) === "K" ? "K" : "M") : "M"`,
then the radius constant `6371` for kilometers and `3958.756` for miles. -/
def ofUnits (units : Option (List Char)) : PlasticGeoDistance :=
  let u : List Char :=
    match units with
    | some s => if s ≠ [] then (if (s.map Char.toUpper).take 1 = ['K'] then ['K'] else ['M']) else ['M']
    | none => ['M']
  ⟨u, if u = ['K'] then 6371 else 3958.756⟩

/-- Source `toRadians`. -/
def toRadians (degrees : ℝ) : ℝ := degrees * π / 180

/-- Source `toDegrees`. -/
def toDegrees (rad : ℝ) : ℝ := rad * 180 / π

/-- Source `geoToRadians`. -/
def geoToRadians (geo : GeoPoint) : GeoPoint := ⟨toRadians geo.lat, toRadians geo.lng⟩

/-- Source `geoToDegrees`. -/
def geoToDegrees (geoR : GeoPoint) : GeoPoint := ⟨toDegrees geoR.lat, toDegrees geoR.lng⟩

/-- JavaScript `Math.atan2 y x` for real arguments (signed zeros do not
exist over `ℝ`, so `atan2 0 0 = 0`, the JS value at `(+0, +0)`). -/
def atan2 (y x : ℝ) : ℝ :=
  if 0 < x then Real.arctan (y / x)
  else if x < 0 then
    (if 0 ≤ y then Real.arctan (y / x) + π else Real.arctan (y / x) - π)
  else
    (if 0 < y then π / 2 else if y < 0 then -(π / 2) else 0)

/-- Source `radianDistance`: the Haversine central angle between two
radian-valued points.  Only the `lat`/`lng` fields of its arguments are read
by the source, so the embedding takes `GeoPoint`s; call sites holding a
`CPoint` pass its lat/lng view. -/
def radianDistance (pA pB : GeoPoint) : ℝ :=
  let dLat := pB.lat - pA.lat
  let dLon := pB.lng - pA.lng
  let a := Real.sin (dLat / 2) * Real.sin (dLat / 2) +
    Real.cos pA.lat * Real.cos pB.lat * Real.sin (dLon / 2) * Real.sin (dLon / 2)
  2 * atan2 (Real.sqrt a) (Real.sqrt (1 - a))

/-- Source `distance`.  The source's final `isNaN(d) ? 0 : d` guard has no
effect over `ℝ` (no NaN exists), so the embedding returns `R * c` directly. -/
def distance (e : PlasticGeoDistance) (point1 point2 : GeoPoint) : ℝ :=
  let pA := geoToRadians point1
  let pB := geoToRadians point2
  let c := radianDistance pA pB
  e.earthRadius * c

/-- Source `bounds`.  The source's `isNaN(dist)` test in the guard is not
representable over `ℝ`; the `dist <= 0` part is kept. -/
def bounds (e : PlasticGeoDistance) (dist : ℝ) (point : GeoPoint) : Bounds :=
  let pA := geoToRadians point
  if dist ≤ 0 then
    { minLat := pA.lat, maxLat := pA.lat, minLng := pA.lng, maxLng := pA.lng }
  else
    let MIN_LAT := toRadians (-90)
    let MAX_LAT := toRadians 90
    let MIN_LON := toRadians (-180)
    let MAX_LON := toRadians 180
    let radDist := dist / e.earthRadius
    let minLat := pA.lat - radDist
    let maxLat := pA.lat + radDist
    let deltaLng := Real.arcsin (Real.sin radDist / Real.cos pA.lat)
    if MIN_LAT < minLat ∧ maxLat < MAX_LAT then
      let minLon0 := pA.lng - deltaLng
      let maxLon0 := pA.lng + deltaLng
      let minLon := if minLon0 < MIN_LON then minLon0 + 2 * π else minLon0
      let maxLon := if MAX_LON < maxLon0 then maxLon0 - 2 * π else maxLon0
      { minLat := toDegrees minLat, maxLat := toDegrees maxLat,
        minLng := toDegrees minLon, maxLng := toDegrees maxLon }
    else
      { minLat := toDegrees (max minLat MIN_LAT), maxLat := toDegrees (min maxLat MAX_LAT),
        minLng := toDegrees MIN_LON, maxLng := toDegrees MAX_LON }

/-- Source `isInBounds`.  An instance method in the source but reads no
instance state. -/
def isInBounds (point : GeoPoint) (b : Bounds) : Prop :=
  (point.lat ≥ b.minLat ∧ point.lat ≤ b.maxLat) ∧
    (if b.minLng > b.maxLng then (point.lng ≥ b.minLng ∨ point.lng ≤ b.maxLng)
     else (point.lng ≥ b.minLng ∧ point.lng ≤ b.maxLng))

/-- Source `_toCenteringArray`. -/
def toCenteringArray (sourceArray : List GeoPoint) : List CPoint :=
  sourceArray.map fun p =>
    let latr := toRadians p.lat
    let lngr := toRadians p.lng
    ⟨latr, lngr, Real.cos latr * Real.cos lngr, Real.cos latr * Real.sin lngr, Real.sin latr⟩

/-- Source `_cartesianToRadians`. -/
def cartesianToRadians (c : CPoint) : CPoint :=
  ⟨atan2 c.z (Real.sqrt (c.x * c.x + c.y * c.y)), atan2 c.y c.x, c.x, c.y, c.z⟩

/-- Source `_computeAverageCoordinates`: sums the cartesian components, divides
by the count, and converts back; an empty (or missing) list returns the zero
record unchanged. -/
def computeAverageCoordinates (points : List CPoint) : CPoint :=
  if 0 < points.length then
    let n : ℝ := points.length
    cartesianToRadians
      ⟨0, 0, (points.map CPoint.x).sum / n, (points.map CPoint.y).sum / n,
        (points.map CPoint.z).sum / n⟩
  else ⟨0, 0, 0, 0, 0⟩

/-- Source `computeMidpoint`.  An instance method in the source but reads no
instance state. -/
def computeMidpoint (points : List GeoPoint) : GeoPoint :=
  let m := computeAverageCoordinates (toCenteringArray points)
  geoToDegrees ⟨m.lat, m.lng⟩

/-- Source `_sumRadianDistance`.  The source's `fromPoint` is a centering
record whose cartesian fields are never read; the embedding takes its
lat/lng view. -/
def sumRadianDistance (fromPoint : GeoPoint) (toPoints : List CPoint) : ℝ :=
  (toPoints.map fun tp => radianDistance fromPoint ⟨tp.lat, tp.lng⟩).sum

/-- Source `distanceToPointList`. -/
def distanceToPointList (e : PlasticGeoDistance) (fromPoint : GeoPoint)
    (toPoints : List GeoPoint) : DistanceResult :=
  let fp := geoToRadians fromPoint
  let pCA := toCenteringArray toPoints
  let totalDist := sumRadianDistance ⟨fp.lat, fp.lng⟩ pCA * e.earthRadius
  ⟨geoToDegrees fromPoint, totalDist / toPoints.length, totalDist⟩

/-- Source `_testCandidateCenterPoints`: folds over the candidates, adopting
any with a strictly smaller distance sum; `avgDist` is carried unchanged. -/
def testCandidateCenterPoints (candidates points : List CPoint)
    (existingBest : DistanceResult) : DistanceResult :=
  candidates.foldl
    (fun result cp =>
      let dist := sumRadianDistance ⟨cp.lat, cp.lng⟩ points
      if dist < result.totalDist then ⟨⟨cp.lat, cp.lng⟩, result.avgDist, dist⟩ else result)
    ⟨⟨existingBest.point.lat, existingBest.point.lng⟩, existingBest.avgDist,
      existingBest.totalDist⟩

/-- Source `_destinationPointRadians`. -/
def destinationPointRadians (start : GeoPoint) (bearing dist : ℝ) : GeoPoint :=
  let lat0 := Real.arcsin (Real.sin start.lat * Real.cos dist +
    Real.cos start.lat * Real.sin dist * Real.cos bearing)
  let lng0 := start.lng + atan2 (Real.sin bearing * Real.sin dist * Real.cos start.lat)
    (Real.cos dist - Real.sin start.lat * Real.sin lat0)
  let lat := if π / 2 < |lat0| then
    π - lat0 - 2 * π * (if lat0 < -(π / 2) then 1 else 0) else lat0
  let lng1 := if π / 2 < |lat0| then lng0 - π else lng0
  let lng := if π < lng1 then lng1 - 2 * π else if lng1 < -π then lng1 + 2 * π else lng1
  ⟨lat, lng⟩

/-- One pass of the body of the source's inner `while` loop: build the ring of
8 candidate points around the current best at distance `testRadius` and test
them. -/
def ringStep (pCA : List CPoint) (testRadius : ℝ) (best : DistanceResult) : DistanceResult :=
  let candidatePts := (List.range 8).map fun i =>
    let dp := destinationPointRadians best.point (π / 4 * i) testRadius
    (⟨dp.lat, dp.lng, 0, 0, 0⟩ : CPoint)
  testCandidateCenterPoints candidatePts pCA best

/-- The source's inner `while (currentBest.totalDist < cbd)` loop, embedded
with explicit fuel: each iteration records the previous total in `cbd` and
runs `ringStep`. -/
def ringLoop (pCA : List CPoint) (testRadius : ℝ) :
    ℕ → DistanceResult → ℝ → DistanceResult
  | 0, best, _ => best
  | fuel + 1, best, cbd =>
    if best.totalDist < cbd then
      ringLoop pCA testRadius fuel (ringStep pCA testRadius best) best.totalDist
    else best

/-- The source's outer `for (r = 0; r < 17; r++)` loop: run the inner loop
with initial `cbd = 200000 + totalDist`, then halve the radius. -/
def radiusLoop (pCA : List CPoint) (fuel : ℕ) :
    ℕ → ℝ → DistanceResult → DistanceResult
  | 0, _, best => best
  | r + 1, testRadius, best =>
    radiusLoop pCA fuel r (testRadius / 2)
      (ringLoop pCA testRadius fuel best (200000 + best.totalDist))

/-- Source `computeMinimumDistancePoint`, with the inner loop fueled. -/
def computeMinimumDistancePoint (e : PlasticGeoDistance) (fuel : ℕ)
    (points : List GeoPoint) : DistanceResult :=
  match points with
  | [] => ⟨⟨0, 0⟩, 0, 0⟩
  | [p] => ⟨⟨p.lat, p.lng⟩, 0, 0⟩
  | p :: q :: rest =>
    let pts := p :: q :: rest
    let pCA := toCenteringArray pts
    let midPt := computeAverageCoordinates pCA
    let best0 : DistanceResult :=
      ⟨⟨midPt.lat, midPt.lng⟩, 0, sumRadianDistance ⟨midPt.lat, midPt.lng⟩ pCA⟩
    let best1 := testCandidateCenterPoints pCA pCA best0
    let bestF := radiusLoop pCA fuel 17 (π / 2) best1
    let totalDist := bestF.totalDist * e.earthRadius
    ⟨geoToDegrees bestF.point, totalDist / pts.length, totalDist⟩

/-! ### Basic facts about the conversion layer -/

/-- Degree-to-radian conversion inverts radian-to-degree conversion. -/
theorem toDegrees_toRadians (x : ℝ) : toDegrees (toRadians x) = x := by
  unfold toDegrees toRadians
  field_simp

/-- Radian-to-degree conversion inverts degree-to-radian conversion. -/
theorem toRadians_toDegrees (x : ℝ) : toRadians (toDegrees x) = x := by
  unfold toDegrees toRadians
  field_simp

theorem geoToRadians_geoToDegrees (g : GeoPoint) : geoToRadians (geoToDegrees g) = g := by
  unfold geoToRadians geoToDegrees
  simp [toRadians_toDegrees]

theorem toDegrees_le_toDegrees {a b : ℝ} (h : a ≤ b) : toDegrees a ≤ toDegrees b := by
  unfold toDegrees
  gcongr

theorem toDegrees_lt_toDegrees {a b : ℝ} (h : a < b) : toDegrees a < toDegrees b := by
  unfold toDegrees
  gcongr

/-- The earth radius constant of any constructed engine is positive. -/
theorem earthRadius_pos (u : Option (List Char)) : 0 < (ofUnits u).earthRadius := by
  unfold ofUnits
  rcases u with _ | s <;> simp only [] <;> split_ifs <;> norm_num

/-- C10: computeMidpoint on the empty list returns exactly the zero point:
the averaging step returns the zero cartesian record unchanged and the
degree conversion maps it to (0, 0). -/
theorem computeMidpoint_nil : computeMidpoint [] = ⟨0, 0⟩ := by
  simp [computeMidpoint, toCenteringArray, computeAverageCoordinates, geoToDegrees, toDegrees]

/-- C3: computeMinimumDistancePoint returns the zero point with zero
distances on the empty list, and returns a singleton's point unchanged with
zero distances, for every engine and every fuel value. -/
theorem computeMinimumDistancePoint_degenerate (e : PlasticGeoDistance) (fuel : ℕ) :
    computeMinimumDistancePoint e fuel [] = ⟨⟨0, 0⟩, 0, 0⟩ ∧
      ∀ p : GeoPoint, computeMinimumDistancePoint e fuel [p] = ⟨p, 0, 0⟩ := by
  exact ⟨rfl, fun p => rfl⟩

/-- C7: great-circle distance is symmetric in its two points, exactly, on
any engine instance. -/
theorem distance_symm (e : PlasticGeoDistance) (a b : GeoPoint) :
    distance e a b = distance e b a := by
  suffices h : ∀ p q : GeoPoint, radianDistance p q = radianDistance q p by
    simp only [distance]
    rw [h]
  intro p q
  simp only [radianDistance]
  rw [show p.lat - q.lat = -(q.lat - p.lat) by ring,
    show p.lng - q.lng = -(q.lng - p.lng) by ring, neg_div, neg_div,
    Real.sin_neg, Real.sin_neg]
  ring_nf

/-- C6: the containment test holds exactly when the latitude is in the
inclusive range and the longitude satisfies the wrap-aware condition:
disjunctive across the seam when minLng exceeds maxLng, conjunctive
otherwise. -/
theorem isInBounds_iff (p : GeoPoint) (b : Bounds) :
    isInBounds p b ↔
      ((b.minLat ≤ p.lat ∧ p.lat ≤ b.maxLat) ∧
        ((b.maxLng < b.minLng ∧ (b.minLng ≤ p.lng ∨ p.lng ≤ b.maxLng)) ∨
          (¬ b.maxLng < b.minLng ∧ (b.minLng ≤ p.lng ∧ p.lng ≤ b.maxLng)))) := by
  unfold isInBounds
  by_cases h : b.minLng > b.maxLng
  · simp [h, ge_iff_le]
  · simp [h, ge_iff_le]

/-- C2 evaluation: on a non-positive radius the degenerate branch of
`bounds` returns the center point converted to radians, not in degrees:
at radius 0 and center (90, 0) every latitude edge is pi/2, which is not
the degree value 90. -/
theorem bounds_degenerate_is_radians :
    bounds (ofUnits none) 0 ⟨90, 0⟩ = ⟨π / 2, π / 2, 0, 0⟩ ∧ π / 2 ≠ (90 : ℝ) := by
  constructor
  · simp only [bounds, geoToRadians, toRadians]
    rw [if_pos (le_refl (0 : ℝ))]
    have h1 : (90 : ℝ) * π / 180 = π / 2 := by ring
    have h2 : (0 : ℝ) * π / 180 = 0 := by ring
    rw [h1, h2]
  · intro h
    have := Real.pi_lt_d2
    linarith

/-- C8: the constructor selects the kilometer radius 6371 exactly when the
indicator is a present, non-empty string whose first character upper-cases
to K; in every other case it selects the mile radius 3958.756; and distance
computations scale by exactly this per-instance radius. -/
theorem ofUnits_unit_selection (u : Option (List Char)) :
    ((ofUnits u).earthRadius = 6371 ↔
        ∃ s, u = some s ∧ s ≠ [] ∧ s.head?.map Char.toUpper = some 'K') ∧
      ((ofUnits u).earthRadius = 3958.756 ↔
        ¬ ∃ s, u = some s ∧ s ≠ [] ∧ s.head?.map Char.toUpper = some 'K') ∧
      ∀ a b : GeoPoint, distance (ofUnits u) a b =
        (ofUnits u).earthRadius * radianDistance (geoToRadians a) (geoToRadians b) := by
  refine ⟨?_, ?_, fun a b => rfl⟩ <;>
    rcases u with _ | s
  · simp [ofUnits] <;> norm_num
  · rcases s with _ | ⟨c, t⟩
    · simp [ofUnits] <;> norm_num
    · by_cases hc : c.toUpper = 'K' <;>
        simp [ofUnits, hc] <;> norm_num
  · simp [ofUnits]
  · rcases s with _ | ⟨c, t⟩
    · simp [ofUnits]
    · by_cases hc : c.toUpper = 'K' <;>
        simp [ofUnits, hc] <;> norm_num

/-- C9: the point field of distanceToPointList is the degree-valued input
point passed through the radians-to-degrees conversion a second time, so it
equals the input scaled by 180/pi coordinatewise and differs from the input
whenever some coordinate is nonzero. -/
theorem distanceToPointList_point_double_converted (e : PlasticGeoDistance)
    (fromPoint : GeoPoint) (toPoints : List GeoPoint) (h : toPoints ≠ []) :
    (distanceToPointList e fromPoint toPoints).point =
        ⟨fromPoint.lat * (180 / π), fromPoint.lng * (180 / π)⟩ ∧
      ((fromPoint.lat ≠ 0 ∨ fromPoint.lng ≠ 0) →
        (distanceToPointList e fromPoint toPoints).point ≠ fromPoint) := by
  have hpt : (distanceToPointList e fromPoint toPoints).point =
      ⟨fromPoint.lat * (180 / π), fromPoint.lng * (180 / π)⟩ := by
    simp only [distanceToPointList, geoToDegrees, toDegrees]
    congr 1 <;> ring
  refine ⟨hpt, fun hnz heq => ?_⟩
  rw [hpt] at heq
  have hπ := Real.pi_lt_d2
  have hπ0 := Real.pi_pos
  have hlat : fromPoint.lat * (180 / π) = fromPoint.lat := congrArg GeoPoint.lat heq
  have hlng : fromPoint.lng * (180 / π) = fromPoint.lng := congrArg GeoPoint.lng heq
  have hne : (180 : ℝ) / π ≠ 1 := by
    intro h1
    have : π = 180 := by
      field_simp at h1
      linarith
    linarith
  rcases hnz with h0 | h0
  · have h1 : fromPoint.lat * (180 / π) = fromPoint.lat * 1 := by
      rw [mul_one]
      exact hlat
    exact hne (mul_left_cancel₀ h0 h1)
  · have h1 : fromPoint.lng * (180 / π) = fromPoint.lng * 1 := by
      rw [mul_one]
      exact hlng
    exact hne (mul_left_cancel₀ h0 h1)

/-- C9 witness: instantiated at the miles engine, from-point (90, 0) and the
one-element to-list [(0, 0)]. -/
theorem distanceToPointList_point_double_converted_witness :
    ([(⟨0, 0⟩ : GeoPoint)] ≠ ([] : List GeoPoint)) ∧
      ((distanceToPointList (ofUnits none) ⟨90, 0⟩ [⟨0, 0⟩]).point =
          ⟨90 * (180 / π), 0 * (180 / π)⟩ ∧
        (((90 : ℝ) ≠ 0 ∨ (0 : ℝ) ≠ 0) →
          (distanceToPointList (ofUnits none) ⟨90, 0⟩ [⟨0, 0⟩]).point ≠ ⟨90, 0⟩)) :=
  ⟨by simp,
    distanceToPointList_point_double_converted (ofUnits none) ⟨90, 0⟩ [⟨0, 0⟩] (by simp)⟩

/-! ### Monotonicity of the minimum-distance search -/

/-- Candidate testing never increases the best total distance. -/
theorem testCandidateCenterPoints_le (candidates points : List CPoint)
    (best : DistanceResult) :
    (testCandidateCenterPoints candidates points best).totalDist ≤ best.totalDist := by
  unfold testCandidateCenterPoints
  suffices h : ∀ (cands : List CPoint) (init : DistanceResult),
      (cands.foldl (fun result cp =>
        let dist := sumRadianDistance ⟨cp.lat, cp.lng⟩ points
        if dist < result.totalDist then
          (⟨⟨cp.lat, cp.lng⟩, result.avgDist, dist⟩ : DistanceResult)
        else result) init).totalDist ≤ init.totalDist by
    exact h candidates _
  intro cands
  induction cands with
  | nil => intro init; exact le_refl _
  | cons c t ih =>
    intro init
    rw [List.foldl_cons]
    refine le_trans (ih _) ?_
    show (if sumRadianDistance ⟨c.lat, c.lng⟩ points < init.totalDist then
        (⟨⟨c.lat, c.lng⟩, init.avgDist, sumRadianDistance ⟨c.lat, c.lng⟩ points⟩ :
          DistanceResult)
      else init).totalDist ≤ init.totalDist
    split_ifs with hlt
    · exact le_of_lt hlt
    · exact le_refl _

/-- One ring pass never increases the best total distance. -/
theorem ringStep_le (pCA : List CPoint) (tR : ℝ) (best : DistanceResult) :
    (ringStep pCA tR best).totalDist ≤ best.totalDist :=
  testCandidateCenterPoints_le _ _ _

/-- The fueled inner loop never increases the best total distance. -/
theorem ringLoop_le (pCA : List CPoint) (tR : ℝ) :
    ∀ (fuel : ℕ) (best : DistanceResult) (cbd : ℝ),
      (ringLoop pCA tR fuel best cbd).totalDist ≤ best.totalDist := by
  intro fuel
  induction fuel with
  | zero => intro best cbd; exact le_refl _
  | succ n ih =>
    intro best cbd
    show (if best.totalDist < cbd then
        ringLoop pCA tR n (ringStep pCA tR best) best.totalDist
      else best).totalDist ≤ best.totalDist
    split_ifs with h
    · exact le_trans (ih _ _) (ringStep_le pCA tR best)
    · exact le_refl _

/-- The 17-radius outer loop never increases the best total distance. -/
theorem radiusLoop_le (pCA : List CPoint) (fuel : ℕ) :
    ∀ (n : ℕ) (tR : ℝ) (best : DistanceResult),
      (radiusLoop pCA fuel n tR best).totalDist ≤ best.totalDist := by
  intro n
  induction n with
  | zero => intro tR best; exact le_refl _
  | succ m ih =>
    intro tR best
    show (radiusLoop pCA fuel m (tR / 2)
        (ringLoop pCA tR fuel best (200000 + best.totalDist))).totalDist ≤ best.totalDist
    exact le_trans (ih _ _) (ringLoop_le pCA tR fuel best _)

/-! ### Non-negativity and the midpoint distance sum -/

theorem atan2_nonneg {y x : ℝ} (hy : 0 ≤ y) (hx : 0 ≤ x) : 0 ≤ atan2 y x := by
  unfold atan2
  split_ifs with h1 h2 h3 h4 <;>
    first
      | exact le_trans (le_of_eq Real.arctan_zero.symm)
          (Real.arctan_strictMono.monotone (div_nonneg hy (le_of_lt h1)))
      | linarith [Real.pi_pos]

theorem radianDistance_nonneg (p q : GeoPoint) : 0 ≤ radianDistance p q := by
  suffices h : ∀ t : ℝ, 0 ≤ 2 * atan2 (Real.sqrt t) (Real.sqrt (1 - t)) by
    simp only [radianDistance]
    exact h _
  intro t
  have := atan2_nonneg (Real.sqrt_nonneg t) (Real.sqrt_nonneg (1 - t))
  linarith

/-- Distance from a degree-converted radian point equals the earth radius
times the Haversine angle measured from the radian point itself. -/
theorem distance_from_degrees (e : PlasticGeoDistance) (g p : GeoPoint) :
    distance e (geoToDegrees g) p =
      e.earthRadius * radianDistance g ⟨toRadians p.lat, toRadians p.lng⟩ := by
  simp only [distance, geoToRadians, geoToDegrees, toRadians_toDegrees]

/-- The total configured-unit distance from a degree-converted radian point
to a point list equals the earth radius times the radian distance sum over
the centering array. -/
theorem sum_distance_eq (e : PlasticGeoDistance) (g : GeoPoint) (points : List GeoPoint) :
    (points.map fun p => distance e (geoToDegrees g) p).sum =
      e.earthRadius * sumRadianDistance g (toCenteringArray points) := by
  induction points with
  | nil => simp [sumRadianDistance, toCenteringArray]
  | cons p t ih =>
    simp only [List.map_cons, List.sum_cons, sumRadianDistance, toCenteringArray] at ih ⊢
    rw [distance_from_degrees, ih]
    ring

/-- The initial best record of the ring search: the cartesian-average
midpoint with its radian distance sum, as built in
`computeMinimumDistancePoint`. -/
def startBest (pts : List GeoPoint) : DistanceResult :=
  ⟨⟨(computeAverageCoordinates (toCenteringArray pts)).lat,
      (computeAverageCoordinates (toCenteringArray pts)).lng⟩, 0,
    sumRadianDistance
      ⟨(computeAverageCoordinates (toCenteringArray pts)).lat,
        (computeAverageCoordinates (toCenteringArray pts)).lng⟩
      (toCenteringArray pts)⟩

theorem computeMinimumDistancePoint_totalDist_eq (e : PlasticGeoDistance) (fuel : ℕ)
    (p q : GeoPoint) (rest : List GeoPoint) :
    (computeMinimumDistancePoint e fuel (p :: q :: rest)).totalDist =
      (radiusLoop (toCenteringArray (p :: q :: rest)) fuel 17 (π / 2)
        (testCandidateCenterPoints (toCenteringArray (p :: q :: rest))
          (toCenteringArray (p :: q :: rest)) (startBest (p :: q :: rest)))).totalDist *
        e.earthRadius := rfl

/-- C1: for every non-empty point list, the totalDist of the minimum-distance
search is at most the summed configured-unit distance from the arithmetic
midpoint to the points, for every engine and fuel value: the search starts at
the midpoint sum and only ever improves. -/
theorem minDistPoint_totalDist_le_midpoint_sum (u : Option (List Char)) (fuel : ℕ)
    (points : List GeoPoint) (hne : points ≠ []) :
    (computeMinimumDistancePoint (ofUnits u) fuel points).totalDist ≤
      (points.map fun p => distance (ofUnits u) (computeMidpoint points) p).sum := by
  rcases points with _ | ⟨p, _ | ⟨q, rest⟩⟩
  · exact absurd rfl hne
  · have hL : (computeMinimumDistancePoint (ofUnits u) fuel [p]).totalDist = 0 := rfl
    rw [hL]
    simp only [List.map_cons, List.map_nil, List.sum_cons, List.sum_nil, add_zero]
    simp only [distance]
    exact mul_nonneg (le_of_lt (earthRadius_pos u)) (radianDistance_nonneg _ _)
  · have hmid : computeMidpoint (p :: q :: rest) = geoToDegrees
        ⟨(computeAverageCoordinates (toCenteringArray (p :: q :: rest))).lat,
          (computeAverageCoordinates (toCenteringArray (p :: q :: rest))).lng⟩ := rfl
    rw [computeMinimumDistancePoint_totalDist_eq, hmid, sum_distance_eq]
    have h1 := radiusLoop_le (toCenteringArray (p :: q :: rest)) fuel 17 (π / 2)
      (testCandidateCenterPoints (toCenteringArray (p :: q :: rest))
        (toCenteringArray (p :: q :: rest)) (startBest (p :: q :: rest)))
    have h2 := testCandidateCenterPoints_le (toCenteringArray (p :: q :: rest))
      (toCenteringArray (p :: q :: rest)) (startBest (p :: q :: rest))
    have hR := earthRadius_pos u
    refine le_trans (mul_le_mul_of_nonneg_right (le_trans h1 h2) (le_of_lt hR)) ?_
    exact le_of_eq (mul_comm _ _)

/-- C1 witness: instantiated at the miles engine, fuel 0 and the singleton
list [(0, 0)]. -/
theorem minDistPoint_totalDist_le_midpoint_sum_witness :
    ([(⟨0, 0⟩ : GeoPoint)] ≠ ([] : List GeoPoint)) ∧
      (computeMinimumDistancePoint (ofUnits none) 0 [⟨0, 0⟩]).totalDist ≤
        (([(⟨0, 0⟩ : GeoPoint)]).map
          fun p => distance (ofUnits none) (computeMidpoint [⟨0, 0⟩]) p).sum :=
  ⟨by simp, minDistPoint_totalDist_le_midpoint_sum none 0 [⟨0, 0⟩] (by simp)⟩

/-! ### The center point lies in its own bounding rectangle -/

theorem isInBounds_of_wrap {p : GeoPoint} {b : Bounds}
    (hlat1 : b.minLat ≤ p.lat) (hlat2 : p.lat ≤ b.maxLat)
    (hwrap : b.maxLng < b.minLng)
    (hlng : b.minLng ≤ p.lng ∨ p.lng ≤ b.maxLng) : isInBounds p b := by
  unfold isInBounds
  rw [if_pos hwrap]
  exact ⟨⟨hlat1, hlat2⟩, hlng⟩

theorem isInBounds_of_nowrap {p : GeoPoint} {b : Bounds}
    (hlat1 : b.minLat ≤ p.lat) (hlat2 : p.lat ≤ b.maxLat)
    (hno : ¬ b.maxLng < b.minLng)
    (hlng1 : b.minLng ≤ p.lng) (hlng2 : p.lng ≤ b.maxLng) : isInBounds p b := by
  unfold isInBounds
  rw [if_neg hno]
  exact ⟨⟨hlat1, hlat2⟩, hlng1, hlng2⟩

/-- C5: for any engine, any in-range center and any positive radius, the
center satisfies its own bounding rectangle, in the non-pole branch
(wrapping or not) and in the pole-touching branch alike. -/
theorem center_in_own_bounds (u : Option (List Char)) (r : ℝ) (c : GeoPoint)
    (hr : 0 < r) (hlat1 : -90 ≤ c.lat) (hlat2 : c.lat ≤ 90)
    (hlng1 : -180 ≤ c.lng) (hlng2 : c.lng ≤ 180) :
    isInBounds c (bounds (ofUnits u) r c) := by
  have hR : 0 < (ofUnits u).earthRadius := earthRadius_pos u
  have hd : 0 < r / (ofUnits u).earthRadius := div_pos hr hR
  have hπ : 0 < π := Real.pi_pos
  have hm90 : toRadians (-90) = -(π / 2) := by unfold toRadians; ring
  have hp90 : toRadians (90 : ℝ) = π / 2 := by unfold toRadians; ring
  have hm180 : toRadians (-180) = -π := by unfold toRadians; ring
  have hp180 : toRadians (180 : ℝ) = π := by unfold toRadians; ring
  have hclat : toDegrees (toRadians c.lat) = c.lat := toDegrees_toRadians c.lat
  have hclng : toDegrees (toRadians c.lng) = c.lng := toDegrees_toRadians c.lng
  have hL1 : -(π / 2) ≤ toRadians c.lat := by
    unfold toRadians
    nlinarith [mul_nonneg (by linarith : (0 : ℝ) ≤ c.lat + 90) (le_of_lt hπ)]
  have hL2 : toRadians c.lat ≤ π / 2 := by
    unfold toRadians
    nlinarith [mul_nonneg (by linarith : (0 : ℝ) ≤ 90 - c.lat) (le_of_lt hπ)]
  have hG1 : -π ≤ toRadians c.lng := by
    unfold toRadians
    nlinarith [mul_nonneg (by linarith : (0 : ℝ) ≤ c.lng + 180) (le_of_lt hπ)]
  have hG2 : toRadians c.lng ≤ π := by
    unfold toRadians
    nlinarith [mul_nonneg (by linarith : (0 : ℝ) ≤ 180 - c.lng) (le_of_lt hπ)]
  simp only [bounds, geoToRadians]
  rw [if_neg (not_le.mpr hr)]
  rw [hm90, hp90, hm180, hp180]
  set L := toRadians c.lat with hLdef
  set G := toRadians c.lng with hGdef
  set d := r / (ofUnits u).earthRadius with hddef
  by_cases hpole : -(π / 2) < L - d ∧ L + d < π / 2
  · rw [if_pos hpole]
    obtain ⟨hA, hB⟩ := hpole
    have hdlt : d < π / 2 := by linarith
    have hLlt1 : -(π / 2) < L := by linarith
    have hLlt2 : L < π / 2 := by linarith
    have hcos : 0 < Real.cos L := Real.cos_pos_of_mem_Ioo ⟨hLlt1, hLlt2⟩
    have hsin : 0 ≤ Real.sin d :=
      Real.sin_nonneg_of_nonneg_of_le_pi (le_of_lt hd) (by linarith)
    set δ := Real.arcsin (Real.sin d / Real.cos L) with hδdef
    have hδ0 : 0 ≤ δ := by
      rw [hδdef]
      exact Real.arcsin_nonneg.mpr (div_nonneg hsin (le_of_lt hcos))
    have hδhalf : δ ≤ π / 2 := by
      rw [hδdef]
      exact Real.arcsin_le_pi_div_two _
    have hlatlo : toDegrees (L - d) ≤ c.lat := by
      rw [← hclat]
      exact toDegrees_le_toDegrees (by linarith)
    have hlathi : c.lat ≤ toDegrees (L + d) := by
      rw [← hclat]
      exact toDegrees_le_toDegrees (by linarith)
    by_cases hw1 : G - δ < -π
    · rw [if_pos hw1]
      by_cases hw2 : π < G + δ
      · exfalso
        linarith
      · rw [if_neg hw2]
        refine isInBounds_of_wrap hlatlo hlathi ?_ (Or.inr ?_)
        · exact toDegrees_lt_toDegrees (by linarith)
        · rw [← hclng]
          exact toDegrees_le_toDegrees (by linarith)
    · rw [if_neg hw1]
      by_cases hw2 : π < G + δ
      · rw [if_pos hw2]
        refine isInBounds_of_wrap hlatlo hlathi ?_ (Or.inl ?_)
        · exact toDegrees_lt_toDegrees (by linarith)
        · rw [← hclng]
          exact toDegrees_le_toDegrees (by linarith)
      · rw [if_neg hw2]
        refine isInBounds_of_nowrap hlatlo hlathi ?_ ?_ ?_
        · exact not_lt.mpr (toDegrees_le_toDegrees (by linarith))
        · rw [← hclng]
          exact toDegrees_le_toDegrees (by linarith)
        · rw [← hclng]
          exact toDegrees_le_toDegrees (by linarith)
  · rw [if_neg hpole]
    have hdm180 : toDegrees (-π) = -180 := by
      unfold toDegrees
      field_simp
      ring
    have hdp180 : toDegrees π = 180 := by
      unfold toDegrees
      field_simp
    refine isInBounds_of_nowrap ?_ ?_ ?_ ?_ ?_
    · rw [← hclat]
      exact toDegrees_le_toDegrees (by
        apply max_le
        · linarith
        · linarith)
    · rw [← hclat]
      exact toDegrees_le_toDegrees (by
        apply le_min
        · linarith
        · linarith)
    · exact not_lt.mpr (toDegrees_le_toDegrees (by linarith))
    · rw [hdm180]
      exact hlng1
    · rw [hdp180]
      exact hlng2

/-- C5 witness: the miles engine, radius 1 and center (0, 0). -/
theorem center_in_own_bounds_witness :
    isInBounds ⟨0, 0⟩ (bounds (ofUnits none) 1 ⟨0, 0⟩) :=
  center_in_own_bounds none 1 ⟨0, 0⟩ (by norm_num) (by norm_num) (by norm_num)
    (by norm_num) (by norm_num)
